import Mathlib

/-
  Verification development for the CyclopsVision backend (Python/FastAPI).

  The definitions below are a shallow embedding of the backend's core logic:
  * `OllamaService._parse_teacher_config` / `_repair_truncated_json`
    (services/gemini_service.py) — step-extraction response parsing,
    JSON repair and timestamp reconciliation;
  * `VideoProcessor.extract_clip` clip-window clamping
    (services/video_processor.py);
  * the `/verify_step` route (routers/verification.py) — rate gate,
    backend invocation and defensive result parsing;
  * the `/ai/feedback` route (routers/ai_feedback.py) — overlay generation
    with its fixed fallback;
  * `LessonStorage.update` / `LessonStorage.delete`
    (services/lesson_storage.py).

  Python floats are modelled as exact rationals (ℚ); decimal literals in the
  sources and test inputs are exactly representable.  Python exceptions are
  modelled with `Except PyErr`, where an `Except.error` escaping a function
  is an uncaught exception.  Model backends perform network I/O; they are
  modelled as an explicit outcome parameter (raised exception or returned
  text), which is how the routers observe them.
-/

namespace CyclopsVision

/-! ## JSON values (results of Python `json.loads`) -/

/-- JSON values as produced by Python `json.loads`.  Numbers are modelled as
exact rationals.  Object keys are unique; a duplicate key in the source text
overwrites the earlier one, as in Python dicts. -/
inductive Json where
  | null : Json
  | bool (b : Bool) : Json
  | num (q : ℚ) : Json
  | str (s : String) : Json
  | arr (xs : List Json) : Json
  | obj (kvs : List (String × Json)) : Json

/-! Characters that are awkward to write literally are defined by code point. -/

def lbraceCh : Char := Char.ofNat 123
def rbraceCh : Char := Char.ofNat 125
def lbrackCh : Char := Char.ofNat 91
def rbrackCh : Char := Char.ofNat 93
def quoteCh : Char := Char.ofNat 34
def backslashCh : Char := Char.ofNat 92

/-- JSON inter-token whitespace (what Python's `json` module skips). -/
def isJsonWs (c : Char) : Bool :=
  c.toNat = 32 || c.toNat = 9 || c.toNat = 10 || c.toNat = 13

def isDigitCh (c : Char) : Bool := 48 ≤ c.toNat && c.toNat ≤ 57

def digitVal (c : Char) : ℕ := c.toNat - 48

def digitsToNat (ds : List Char) : ℕ :=
  ds.foldl (fun n c => n * 10 + digitVal c) 0

def hexVal (c : Char) : Option ℕ :=
  if 48 ≤ c.toNat ∧ c.toNat ≤ 57 then some (c.toNat - 48)
  else if 97 ≤ c.toNat ∧ c.toNat ≤ 102 then some (c.toNat - 87)
  else if 65 ≤ c.toNat ∧ c.toNat ≤ 70 then some (c.toNat - 55)
  else none

def skipWs (cs : List Char) : List Char := cs.dropWhile isJsonWs

/-- Parse the body of a JSON string literal (the opening quote has been
consumed), decoding escapes.  A `\uXXXX` escape is decoded to the scalar
value when valid (lone surrogates, which Python tolerates, are modelled as
NUL — no claim depends on them).  Unescaped control characters are rejected,
matching Python's strict default. -/
def parseStrBody : ℕ → List Char → List Char → Option (String × List Char)
  | 0, _, _ => none
  | fuel + 1, acc, cs =>
    match cs with
    | [] => none
    | c :: rest =>
      if c = quoteCh then some (String.mk acc.reverse, rest)
      else if c = backslashCh then
        match rest with
        | [] => none
        | e :: rest2 =>
          if e = quoteCh then parseStrBody fuel (quoteCh :: acc) rest2
          else if e = backslashCh then parseStrBody fuel (backslashCh :: acc) rest2
          else if e = '/' then parseStrBody fuel ('/' :: acc) rest2
          else if e = 'b' then parseStrBody fuel (Char.ofNat 8 :: acc) rest2
          else if e = 'f' then parseStrBody fuel (Char.ofNat 12 :: acc) rest2
          else if e = 'n' then parseStrBody fuel (Char.ofNat 10 :: acc) rest2
          else if e = 'r' then parseStrBody fuel (Char.ofNat 13 :: acc) rest2
          else if e = 't' then parseStrBody fuel (Char.ofNat 9 :: acc) rest2
          else if e = 'u' then
            match rest2 with
            | h1 :: h2 :: h3 :: h4 :: rest3 =>
              match hexVal h1, hexVal h2, hexVal h3, hexVal h4 with
              | some a, some b, some c2, some d =>
                parseStrBody fuel (Char.ofNat (((a * 16 + b) * 16 + c2) * 16 + d) :: acc) rest3
              | _, _, _, _ => none
            | _ => none
          else none
      else if c.toNat < 32 then none
      else parseStrBody fuel (c :: acc) rest

/-- Parse a JSON number (RFC 8259 grammar, as accepted by Python `json`):
optional minus sign, integer part without leading zeros, optional fraction,
optional exponent. -/
def parseNum (cs : List Char) : Option (ℚ × List Char) := do
  let (neg, cs1) :=
    match cs with
    | c :: rest => if c = '-' then (true, rest) else (false, cs)
    | [] => (false, cs)
  let intDs := cs1.takeWhile isDigitCh
  let cs2 := cs1.dropWhile isDigitCh
  if intDs = [] then none
  else if 1 < intDs.length ∧ intDs.headD '0' = '0' then none
  else
    let base : ℚ := (digitsToNat intDs : ℚ)
    let fracStep : Option (ℚ × List Char) :=
      match cs2 with
      | c :: rest =>
        if c = '.' then
          let fds := rest.takeWhile isDigitCh
          if fds = [] then none
          else some (base + (digitsToNat fds : ℚ) / ((10 : ℚ) ^ fds.length),
                     rest.dropWhile isDigitCh)
        else some (base, cs2)
      | [] => some (base, cs2)
    let (v1, cs3) ← fracStep
    let expStep : Option (ℚ × List Char) :=
      match cs3 with
      | c :: rest =>
        if c = 'e' ∨ c = 'E' then
          let (negExp, rest2) :=
            match rest with
            | c2 :: r2 =>
              if c2 = '+' then (false, r2)
              else if c2 = '-' then (true, r2)
              else (false, rest)
            | [] => (false, rest)
          let eds := rest2.takeWhile isDigitCh
          if eds = [] then none
          else
            let p : ℚ := (10 : ℚ) ^ digitsToNat eds
            some (if negExp then v1 / p else v1 * p, rest2.dropWhile isDigitCh)
        else some (v1, cs3)
      | [] => some (v1, cs3)
    let (v2, cs4) ← expStep
    some (if neg then -v2 else v2, cs4)

/-- Insert a key/value pair into an object being built; a duplicate key
overwrites the earlier binding (Python dict semantics). -/
def objInsert (kvs : List (String × Json)) (k : String) (v : Json) :
    List (String × Json) :=
  match kvs with
  | [] => [(k, v)]
  | (k2, v2) :: rest =>
    if k2 = k then (k, v) :: rest else (k2, v2) :: objInsert rest k v

mutual

/-- Recursive-descent JSON value parser (fuel-indexed; adequate fuel is
supplied by `jsonLoadsChars`). -/
def parseVal : ℕ → List Char → Option (Json × List Char)
  | 0, _ => none
  | fuel + 1, cs =>
    match skipWs cs with
    | [] => none
    | c :: rest =>
      if c = quoteCh then
        match parseStrBody (rest.length + 1) [] rest with
        | some (s, rest2) => some (Json.str s, rest2)
        | none => none
      else if c = lbraceCh then
        match skipWs rest with
        | c2 :: rest2 =>
          if c2 = rbraceCh then some (Json.obj [], rest2)
          else parseMembers fuel (c2 :: rest2) []
        | [] => none
      else if c = lbrackCh then
        match skipWs rest with
        | c2 :: rest2 =>
          if c2 = rbrackCh then some (Json.arr [], rest2)
          else parseElems fuel (c2 :: rest2) []
        | [] => none
      else if c = 'n' then
        match rest with
        | 'u' :: 'l' :: 'l' :: rest2 => some (Json.null, rest2)
        | _ => none
      else if c = 't' then
        match rest with
        | 'r' :: 'u' :: 'e' :: rest2 => some (Json.bool true, rest2)
        | _ => none
      else if c = 'f' then
        match rest with
        | 'a' :: 'l' :: 's' :: 'e' :: rest2 => some (Json.bool false, rest2)
        | _ => none
      else
        match parseNum (c :: rest) with
        | some (q, rest2) => some (Json.num q, rest2)
        | none => none

/-- Parse the members of a non-empty JSON object (after the opening brace and
leading whitespace). -/
def parseMembers : ℕ → List Char → List (String × Json) →
    Option (Json × List Char)
  | 0, _, _ => none
  | fuel + 1, cs, acc =>
    match skipWs cs with
    | c :: rest =>
      if c = quoteCh then
        match parseStrBody (rest.length + 1) [] rest with
        | some (k, rest2) =>
          match skipWs rest2 with
          | ':' :: rest3 =>
            match parseVal fuel rest3 with
            | some (v, rest4) =>
              let acc2 := objInsert acc k v
              match skipWs rest4 with
              | ',' :: rest5 => parseMembers fuel rest5 acc2
              | c2 :: rest5 =>
                if c2 = rbraceCh then some (Json.obj acc2, rest5) else none
              | [] => none
            | none => none
          | _ => none
        | none => none
      else none
    | [] => none

/-- Parse the elements of a non-empty JSON array (after the opening bracket
and leading whitespace). -/
def parseElems : ℕ → List Char → List Json → Option (Json × List Char)
  | 0, _, _ => none
  | fuel + 1, cs, acc =>
    match parseVal fuel cs with
    | some (v, rest) =>
      match skipWs rest with
      | ',' :: rest2 => parseElems fuel rest2 (acc ++ [v])
      | c :: rest2 =>
        if c = rbrackCh then some (Json.arr (acc ++ [v]), rest2) else none
      | [] => none
    | none => none

end

/-- Python `json.loads` on a character list: parse one JSON value and require
only trailing whitespace after it; `none` models `json.JSONDecodeError`. -/
def jsonLoadsChars (cs : List Char) : Option Json :=
  match parseVal (cs.length + 2) cs with
  | some (j, rest) => if skipWs rest = [] then some j else none
  | none => none

/-- Python `json.loads` on a string. -/
def jsonLoads (s : String) : Option Json := jsonLoadsChars s.data

/-! ## Python exceptions and value helpers -/

/-- Python exception kinds relevant to the embedded code.  An `Except.error`
escaping a modelled function is an uncaught Python exception. -/
inductive PyErr where
  | jsonDecode
  | valueError
  | typeError
  | attributeError
  | validationError
deriving DecidableEq

/-- Short diagnostic text standing in for Python `str(e)`. -/
def pyErrText : PyErr → String
  | .jsonDecode => "JSONDecodeError"
  | .valueError => "ValueError"
  | .typeError => "TypeError"
  | .attributeError => "AttributeError"
  | .validationError => "ValidationError"

/-- Key lookup in a JSON object (`none` on other values or missing keys). -/
def jsonFind (j : Json) (k : String) : Option Json :=
  match j with
  | .obj kvs => (kvs.find? (fun p => p.1 = k)).map (fun p => p.2)
  | _ => none

/-- Python `d.get(k, default)`; calling `.get` on a non-dict raises
`AttributeError`. -/
def pyDictGetD (j : Json) (k : String) (d : Json) : Except PyErr Json :=
  match j with
  | .obj _ => .ok ((jsonFind j k).getD d)
  | _ => .error .attributeError

/-- Python `k in d` for a dict. -/
def pyHasKey (j : Json) (k : String) : Bool :=
  match j with
  | .obj kvs => kvs.any (fun p => p.1 = k)
  | _ => false

/-- Numeric view of a JSON scalar; Python treats bools as the ints 0/1. -/
def pyNumVal : Json → Option ℚ
  | .num q => some q
  | .bool b => some (if b then 1 else 0)
  | _ => none

/-- Python `a <= b` on JSON scalars: numbers compare numerically, strings
lexicographically; mixed or non-comparable types raise `TypeError`. -/
def pyLE (a b : Json) : Except PyErr Bool :=
  match pyNumVal a, pyNumVal b with
  | some x, some y => .ok (x ≤ y)
  | _, _ =>
    match a, b with
    | .str s, .str t => .ok (s ≤ t)
    | _, _ => .error .typeError

/-- Python `a - b` on JSON scalars; non-numeric operands raise `TypeError`. -/
def pySubNum (a b : Json) : Except PyErr ℚ :=
  match pyNumVal a, pyNumVal b with
  | some x, some y => .ok (x - y)
  | _, _ => .error .typeError

/-- Python `int(x)` on a float: truncation toward zero. -/
def pyTruncInt (q : ℚ) : ℤ := if 0 ≤ q then ⌊q⌋ else ⌈q⌉

def strToIntOpt (s : String) : Option ℤ :=
  match s.data with
  | '-' :: ds =>
    if ds ≠ [] ∧ ds.all isDigitCh then some (-(digitsToNat ds : ℤ)) else none
  | ds =>
    if ds ≠ [] ∧ ds.all isDigitCh then some ((digitsToNat ds : ℤ)) else none

/-- Pydantic coercion to `int`: ints pass, floats with no fractional part
pass, integer-literal strings pass; everything else fails validation. -/
def pyInt : Json → Except PyErr ℤ
  | .num q => if q.den = 1 then .ok q.num else .error .validationError
  | .str s =>
    match strToIntOpt s with
    | some n => .ok n
    | none => .error .validationError
  | _ => .error .validationError

/-- Pydantic coercion to `str`: only strings are accepted. -/
def pyStr : Json → Except PyErr String
  | .str s => .ok s
  | _ => .error .validationError

/-- Pydantic coercion to `float`: numbers pass, numeric strings pass;
everything else fails validation. -/
def pyFloat : Json → Except PyErr ℚ
  | .num q => .ok q
  | .str s =>
    match parseNum s.data with
    | some (q, rest) => if rest = [] then .ok q else .error .validationError
    | none => .error .validationError
  | _ => .error .validationError

/-- Pydantic coercion to `List[str]`. -/
def pyStrList : Json → Except PyErr (List String)
  | .arr xs => xs.mapM pyStr
  | _ => .error .validationError

/-- Pydantic coercion to `Optional[str]`. -/
def pyOptStr : Json → Except PyErr (Option String)
  | .null => .ok none
  | .str s => .ok (some s)
  | _ => .error .validationError

/-- Python `len`/iteration over a JSON value: lists yield their elements,
strings their characters, dicts their keys; other values raise
`TypeError`. -/
def pyToList : Json → Except PyErr (List Json)
  | .arr xs => .ok xs
  | .str s => .ok (s.data.map (fun c => Json.str (String.mk [c])))
  | .obj kvs => .ok (kvs.map (fun p => Json.str p.1))
  | _ => .error .typeError

/-! ## Data model (models/lesson.py) -/

structure MistakePattern where
  type : String
  description : String
deriving DecidableEq

structure Step where
  step_id : ℤ
  title : String
  description : String
  expected_objects : List String
  expected_motion : String
  expected_duration_seconds : ℤ
  mistake_patterns : List MistakePattern
  correction_mode : String
  start_time : ℚ
  end_time : ℚ
  clip_url : Option String
deriving DecidableEq

structure TeacherConfig where
  lesson_id : String
  total_steps : ℤ
  steps : List Step
deriving DecidableEq

/-- `MistakePattern(**mp)`: `mp` must be a dict (else `TypeError`); pydantic
requires string fields `type` and `description` and ignores extra keys. -/
def pyMistakePattern (j : Json) : Except PyErr MistakePattern :=
  match j with
  | .obj _ =>
    match jsonFind j "type", jsonFind j "description" with
    | some t, some d => do
      let ts ← pyStr t
      let ds ← pyStr d
      .ok { type := ts, description := ds }
    | _, _ => .error .validationError
  | _ => .error .typeError

/-! ## Timestamp reconciliation (gemini_service.py lines 152-160) and
clip-window clamping (video_processor.py lines 204-205) -/

/-- Even redistribution of step `i` of `N` over a video of length `dur`:
`step_duration = video_duration / num_steps`, `start = i * step_duration`,
`end = (i + 1) * step_duration`. -/
def evenWindow (i N : ℕ) (dur : ℚ) : ℚ × ℚ :=
  ((i : ℚ) * (dur / (N : ℚ)), ((i : ℚ) + 1) * (dur / (N : ℚ)))

/-- Timestamp reconciliation for one step: if the model window is invalid
(`end_time <= start_time`) and the video duration is known, the step is
redistributed evenly; otherwise the window passes through unmodified. -/
def reconcileWindow (i N : ℕ) (dur s e : ℚ) : ℚ × ℚ :=
  if e ≤ s ∧ 0 < dur ∧ 0 < N then evenWindow i N dur else (s, e)

def reconcileGo (dur : ℚ) (N : ℕ) : ℕ → List (ℚ × ℚ) → List (ℚ × ℚ)
  | _, [] => []
  | i, w :: rest => reconcileWindow i N dur w.1 w.2 :: reconcileGo dur N (i + 1) rest

/-- The reconciliation pass over a parsed step list, iterated as in
`_parse_teacher_config` (`enumerate` with `num_steps = len(steps)`). -/
def reconcileWindows (dur : ℚ) (ws : List (ℚ × ℚ)) : List (ℚ × ℚ) :=
  reconcileGo dur ws.length 0 ws

/-- The clip-window clamping performed by `VideoProcessor.extract_clip`:
`start = max(0, min(start, duration))`,
`end = max(start + 0.5, min(end, duration))`. -/
def clipBounds (dur s e : ℚ) : ℚ × ℚ :=
  let s2 := max 0 (min s dur)
  (s2, max (s2 + 1 / 2) (min e dur))

/-! ## Step-extraction response parsing (gemini_service.py lines 126-223) -/

def fenceChars : List Char := "```".data

def fenceJsonChars : List Char := "```json".data

/-- Split at the first occurrence of `sep`: the part before it and the part
after it (components of Python `s.split(sep)`). -/
def findSub (sep : List Char) : List Char → Option (List Char × List Char)
  | [] => if sep.isEmpty then some ([], []) else none
  | c :: rest =>
    if sep.isPrefixOf (c :: rest) then some ([], (c :: rest).drop sep.length)
    else
      match findSub sep rest with
      | some (pre, post) => some (c :: pre, post)
      | none => none

/-- Code-fence stripping of `_parse_teacher_config` (lines 130-134).
Python computes `split(tag)[1].split("" ++ "")[0]`; taking the text after
the first tag and cutting it at the next fence is equivalent, because every
later occurrence of the tag itself starts with a fence. -/
def stripFence (cs : List Char) : List Char :=
  match findSub fenceJsonChars cs with
  | some (_, post) =>
    match findSub fenceChars post with
    | some (pre, _) => pre
    | none => post
  | none =>
    match findSub fenceChars cs with
    | some (_, post) =>
      match findSub fenceChars post with
      | some (pre, _) => pre
      | none => post
    | none => cs

/-- Whitespace stripped by Python `str.strip()` (ASCII part). -/
def isPyStripWs (c : Char) : Bool :=
  c.toNat = 32 || c.toNat = 9 || c.toNat = 10 || c.toNat = 13 ||
  c.toNat = 11 || c.toNat = 12

/-- Python `str.strip()`. -/
def pyStrip (cs : List Char) : List Char :=
  ((cs.dropWhile isPyStripWs).reverse.dropWhile isPyStripWs).reverse

/-- ASCII whitespace matched by the regex class `\s`. -/
def isReWs (c : Char) : Bool := isPyStripWs c

def stepIdKeyChars : List Char := quoteCh :: ("step_id".data ++ [quoteCh])

def notBrace (c : Char) : Bool := ¬ (c = lbraceCh ∨ c = rbraceCh)

/-- Match the tail of the step-object regex of `_repair_truncated_json`
after the digits: a run of non-brace characters, any number of one-level
nested brace groups each followed by non-brace characters, then the closing
brace.  The regex is deterministic here because its character classes
exclude braces. -/
def matchStepTail : ℕ → List Char → Option (List Char)
  | 0, _ => none
  | fuel + 1, cs =>
    match cs.dropWhile notBrace with
    | [] => none
    | c :: rest =>
      if c = rbraceCh then some rest
      else
        match rest.dropWhile notBrace with
        | c2 :: rest2 => if c2 = rbraceCh then matchStepTail fuel rest2 else none
        | [] => none

/-- Try to match the step-object regex of `_repair_truncated_json` at the
start of `cs` (an opening brace, optional whitespace, the quoted key
`step_id`, optional whitespace, a colon, optional whitespace, digits, then
the tail pattern); returns the input remaining after the match. -/
def matchStepAt (cs : List Char) : Option (List Char) :=
  match cs with
  | [] => none
  | c :: rest =>
    if c = lbraceCh then
      let r1 := rest.dropWhile isReWs
      if stepIdKeyChars.isPrefixOf r1 then
        let r2 := (r1.drop stepIdKeyChars.length).dropWhile isReWs
        match r2 with
        | ':' :: r3 =>
          let r4 := r3.dropWhile isReWs
          if (r4.takeWhile isDigitCh).isEmpty then none
          else matchStepTail (r4.length + 1) (r4.dropWhile isDigitCh)
        | _ => none
      else none
    else none

/-- `re.findall` scan: leftmost, non-overlapping matches. -/
def findStepMatches : ℕ → List Char → List (List Char)
  | 0, _ => []
  | fuel + 1, cs =>
    match cs with
    | [] => []
    | _ :: rest =>
      match matchStepAt cs with
      | some remaining =>
        cs.take (cs.length - remaining.length) :: findStepMatches fuel remaining
      | none => findStepMatches fuel rest

/-- `OllamaService._repair_truncated_json`: extract complete step objects
from truncated JSON; `none` models the re-raised `JSONDecodeError` when no
step object parses. -/
def repairTruncated (cs : List Char) : Option Json :=
  let ms := findStepMatches (cs.length + 1) cs
  let steps := ms.foldr
    (fun m acc =>
      match jsonLoadsChars m with
      | some o => if pyHasKey o "step_id" then o :: acc else acc
      | none => acc) []
  if steps.isEmpty then none else some (Json.obj [("steps", Json.arr steps)])

/-- The fixed degraded-fallback config returned by `_parse_teacher_config`
when parsing fails with a `JSONDecodeError`. -/
def fallbackTeacherConfig (lessonId : String) : TeacherConfig :=
  { lesson_id := lessonId, total_steps := 1,
    steps := [{ step_id := 1, title := "Procedure",
                description := "Follow the demonstration",
                expected_objects := [], expected_motion := "",
                expected_duration_seconds := 30, mistake_patterns := [],
                correction_mode := "diagram_overlay_audio",
                start_time := 0, end_time := 0, clip_url := none }] }

/-- One iteration of the step-construction loop of `_parse_teacher_config`
(lines 147-173): field extraction with Python-dict defaults, timestamp
reconciliation, and pydantic validation of the `Step` model.  `i` is the
enumeration index, which equals `len(steps)` so far because an exception in
an earlier iteration aborts the whole parse.  For numeric timestamps the
redistribution test and assignment are exactly `reconcileWindow`; for the
remaining comparable case (two strings) the branch is inlined. -/
def buildStepFromJson (i N : ℕ) (dur : ℚ) (sd : Json) : Except PyErr Step := do
  let mpJ ← pyDictGetD sd "mistake_patterns" (Json.arr [])
  let mpItems ← pyToList mpJ
  let mps ← mpItems.mapM pyMistakePattern
  let sJ ← pyDictGetD sd "start_time" (Json.num 0)
  let eJ ← pyDictGetD sd "end_time" (Json.num 0)
  let invalid ← pyLE eJ sJ
  let w : Json × Json :=
    match sJ, eJ with
    | Json.num sq, Json.num eq2 =>
      let r := reconcileWindow i N dur sq eq2
      (Json.num r.1, Json.num r.2)
    | _, _ =>
      if invalid ∧ 0 < dur ∧ 0 < N then
        let r := evenWindow i N dur
        (Json.num r.1, Json.num r.2)
      else (sJ, eJ)
  let diff ← pySubNum w.2 w.1
  let defDur : ℤ := if pyTruncInt diff = 0 then 10 else pyTruncInt diff
  let durJ ← pyDictGetD sd "expected_duration_seconds" (Json.num (defDur : ℚ))
  let sidJ ← pyDictGetD sd "step_id" (Json.num ((i : ℚ) + 1))
  let titleJ ← pyDictGetD sd "title" (Json.str ("Step " ++ Nat.repr (i + 1)))
  let descJ ← pyDictGetD sd "description" (Json.str "")
  let objsJ ← pyDictGetD sd "expected_objects" (Json.arr [])
  let motionJ ← pyDictGetD sd "expected_motion" (Json.str "")
  let sid ← pyInt sidJ
  let title ← pyStr titleJ
  let desc ← pyStr descJ
  let objs ← pyStrList objsJ
  let motion ← pyStr motionJ
  let edur ← pyInt durJ
  let st ← pyFloat w.1
  let en ← pyFloat w.2
  Except.ok
    { step_id := sid, title := title, description := desc,
      expected_objects := objs, expected_motion := motion,
      expected_duration_seconds := edur, mistake_patterns := mps,
      correction_mode := "diagram_overlay_audio",
      start_time := st, end_time := en, clip_url := none }

/-- The body of `OllamaService._parse_teacher_config` up to (and including)
the `raise ValueError("No steps parsed")`, before the surrounding
`except json.JSONDecodeError` handler is applied. -/
def parseTeacherConfigBody (responseText lessonId : String) (dur : ℚ) :
    Except PyErr TeacherConfig := do
  let jsonStr := pyStrip (stripFence responseText.data)
  let data ←
    match jsonLoadsChars jsonStr with
    | some d => Except.ok d
    | none =>
      match repairTruncated jsonStr with
      | some d => Except.ok d
      | none => Except.error PyErr.jsonDecode
  let stepsJ ← pyDictGetD data "steps" (Json.arr [])
  let stepItems ← pyToList stepsJ
  let steps ← stepItems.enum.mapM
    (fun p => buildStepFromJson p.1 stepItems.length dur p.2)
  if steps.isEmpty then Except.error PyErr.valueError
  else
    Except.ok
      { lesson_id := lessonId, total_steps := (steps.length : ℤ), steps := steps }

/-- `OllamaService._parse_teacher_config`: the body above with its exception
handler, which catches only `json.JSONDecodeError` and returns the fixed
fallback config.  Any other exception (an `Except.error` other than
`jsonDecode`) escapes to the caller. -/
def parseTeacherConfig (responseText lessonId : String) (dur : ℚ) :
    Except PyErr TeacherConfig :=
  match parseTeacherConfigBody responseText lessonId dur with
  | .error .jsonDecode => .ok (fallbackTeacherConfig lessonId)
  | r => r

/-! ## Live step verification (routers/verification.py) -/

structure VerificationResponse where
  status : String
  reason : String
  confidence : ℚ
  suggestion : Option String
deriving DecidableEq

/-- The three values admitted by the `Literal` status field of
`VerificationResponse`. -/
def allowedStatus (s : String) : Prop :=
  s = "in_progress" ∨ s = "complete" ∨ s = "mistake"

instance (s : String) : Decidable (allowedStatus s) := by
  unfold allowedStatus; infer_instance

/-- Per-lesson rate-limit state (the module-level `LAST_REQUEST_TIME`
dictionary, times in seconds). -/
abbrev RateState := List (String × ℚ)

/-- `LAST_REQUEST_TIME.get(request.lesson_id, 0)` (dict keys are unique, so
first-match lookup is dict lookup). -/
def lastRequestTime : RateState → String → ℚ
  | [], _ => 0
  | p :: rest, lessonId =>
    if p.1 = lessonId then p.2 else lastRequestTime rest lessonId

/-- `LAST_REQUEST_TIME[request.lesson_id] = now`. -/
def setRequestTime (st : RateState) (lessonId : String) (t : ℚ) : RateState :=
  match st with
  | [] => [(lessonId, t)]
  | p :: rest =>
    if p.1 = lessonId then (lessonId, t) :: rest
    else p :: setRequestTime rest lessonId t

/-- `RATE_LIMIT_SECONDS = 2.0`. -/
def rateLimitSeconds : ℚ := 2

/-- Outcome of the model-backend interaction as observed by the route
handler: service construction raised, the chat call raised (with message
`msg`), or the model returned `text`. -/
inductive BackendOutcome where
  | initFail
  | callRaise (msg : String)
  | ok (text : String)
deriving DecidableEq

structure VerifyResult where
  response : VerificationResponse
  state : RateState
  backendCalled : Bool
deriving DecidableEq

/-- `re.search` with the pattern of one brace-delimited block under
`re.DOTALL`: since the greedy dot matches newlines, a match exists exactly
when some closing brace strictly follows the first opening brace, and the
matched span runs from the first opening brace to the last closing brace of
the whole string. -/
def extractBraces (s : String) : Option String :=
  let cs := s.data
  match cs.findIdx? (fun c => c = lbraceCh),
        cs.reverse.findIdx? (fun c => c = rbraceCh) with
  | some i, some rj =>
    let j := cs.length - 1 - rj
    if i < j then some (String.mk ((cs.drop i).take (j - i + 1))) else none
  | _, _ => none

/-- The brace-extraction-plus-`json.loads` composition used by the verify
route to obtain a result object from the raw model text. -/
def braceJson (s : String) : Option Json := (extractBraces s).bind jsonLoads

/-- The defensive response construction of verification.py lines 134-146:
the raw `data.get("status", "in_progress")` value is kept only when it is
one of the three allowed strings and replaced by `"in_progress"` otherwise;
the pydantic model then validates the remaining fields. -/
def buildVerificationResponse (data : Json) :
    Except PyErr VerificationResponse :=
  match pyDictGetD data "status" (Json.str "in_progress") with
  | .error e => .error e
  | .ok st0 =>
    let status : String :=
      match st0 with
      | Json.str s => if allowedStatus s then s else "in_progress"
      | _ => "in_progress"
    match pyDictGetD data "reason" (Json.str "Analyzing...") with
    | .error e => .error e
    | .ok reasonJ =>
      match pyDictGetD data "confidence" (Json.num (1 / 2)) with
      | .error e => .error e
      | .ok confJ =>
        match pyDictGetD data "suggestion" Json.null with
        | .error e => .error e
        | .ok suggJ =>
          match pyStr reasonJ with
          | .error e => .error e
          | .ok reason =>
            match pyFloat confJ with
            | .error e => .error e
            | .ok conf =>
              match pyOptStr suggJ with
              | .error e => .error e
              | .ok sugg =>
                .ok { status := status, reason := reason,
                      confidence := conf, suggestion := sugg }

/-- `verify_step_completion` (routers/verification.py): the rate gate, the
rate-state update, the backend invocation and the defensive result parsing.
`now` is `time.time()`; the backend interaction is the `bo` parameter.  The
result records the HTTP response, the rate-limit state after the call, and
whether the model backend was invoked. -/
def verifyStep (st : RateState) (now : ℚ) (lessonId : String)
    (bo : BackendOutcome) : VerifyResult :=
  if now - lastRequestTime st lessonId < rateLimitSeconds then
    { response := { status := "in_progress", reason := "Checking...",
                    confidence := 0, suggestion := none },
      state := st, backendCalled := false }
  else
    let st2 := setRequestTime st lessonId now
    match bo with
    | .initFail =>
      { response := { status := "in_progress", reason := "AI unavailable",
                      confidence := 0, suggestion := some "Check Ollama" },
        state := st2, backendCalled := false }
    | .callRaise msg =>
      { response := { status := "in_progress", reason := "Error",
                      confidence := 0, suggestion := some (msg.take 50) },
        state := st2, backendCalled := true }
    | .ok text =>
      let resp : VerificationResponse :=
        match extractBraces text with
        | none =>
          { status := "in_progress", reason := "Processing...",
            confidence := 0, suggestion := none }
        | some sub =>
          match jsonLoads sub with
          | none =>
            { status := "in_progress", reason := "Analyzing...",
              confidence := 0, suggestion := none }
          | some data =>
            match buildVerificationResponse data with
            | .ok r => r
            | .error e =>
              { status := "in_progress", reason := "Error",
                confidence := 0, suggestion := some ((pyErrText e).take 50) }
      { response := resp, state := st2, backendCalled := true }

/-! ## Mistake feedback and overlay generation (routers/ai_feedback.py) -/

structure OverlayInstruction where
  overlay_type : String
  audio_text : String
  elements : List Json
  duration_seconds : ℚ

structure FeedbackResponse where
  success : Bool
  overlay : Option OverlayInstruction
  message : String

structure FeedbackRequest where
  lesson_id : String
  step_id : ℤ
  mistake_type : String
  frame_base64 : Option String

/-- A stored lesson as returned by the lesson repository. -/
structure Lesson where
  id : String
  title : String
  demo_video_url : String
  ai_teacher_config : Option TeacherConfig

/-- FastAPI `HTTPException`s raised by the feedback route. -/
inductive HTTPErr where
  | notFound (detail : String)
  | badRequest (detail : String)

/-- Outcome of `generate_correction_overlay`: the call raised, or returned a
parsed overlay dict (the service-side `_parse_overlay_response` catches its
own exceptions, so the route sees either a dict or a raised exception from
the network call). -/
inductive OverlayOutcome where
  | raise
  | ok (data : Json)

/-- Pydantic validation of one `OverlayElement` (models/overlay.py),
modelled at the JSON level: an element must be a dict whose `type` tag
selects one of the four closed variants and carry that variant's required
fields; field payloads are kept as raw JSON. -/
def validElement (j : Json) : Bool :=
  match jsonFind j "type" with
  | some (Json.str t) =>
    (t = "circle" && pyHasKey j "center" && pyHasKey j "radius") ||
    (t = "arrow" && pyHasKey j "from" && pyHasKey j "to") ||
    (t = "label" && pyHasKey j "position" && pyHasKey j "text") ||
    (t = "rectangle" && pyHasKey j "origin" && pyHasKey j "size")
  | _ => false

/-- Pydantic validation of `List[OverlayElement]`. -/
def validateElements : Json → Except PyErr (List Json)
  | .arr xs => if xs.all validElement then .ok xs else .error .validationError
  | _ => .error .validationError

/-- The fixed fallback overlay built in the exception handler of
`get_feedback` (ai_feedback.py lines 76-90). -/
def fallbackOverlay (stepTitle : String) : OverlayInstruction :=
  { overlay_type := "diagram",
    audio_text := "Please check your technique for: " ++ stepTitle,
    elements := [Json.obj
      [("type", Json.str "label"),
       ("position", Json.arr [Json.num (1 / 2), Json.num (1 / 10)]),
       ("text", Json.str ("Review: " ++ stepTitle)),
       ("font_size", Json.num 18),
       ("color", Json.str "#FFFFFF"),
       ("background", Json.str "#FF4444CC")]],
    duration_seconds := 5 }

/-- `get_feedback` (routers/ai_feedback.py): lesson and step lookup, overlay
generation via the backend outcome `bo`, and the fixed fallback on any
exception from the backend call or the response-model construction. -/
def getFeedback (getLesson : String → Option Lesson) (req : FeedbackRequest)
    (bo : OverlayOutcome) : Except HTTPErr FeedbackResponse :=
  match getLesson req.lesson_id with
  | none => .error (.notFound "Lesson not found")
  | some lesson =>
    match lesson.ai_teacher_config with
    | none => .error (.badRequest "Lesson has no AI teacher config")
    | some cfg =>
      match cfg.steps.find? (fun s => s.step_id = req.step_id) with
      | none =>
        .error (.badRequest
          ("Step " ++ toString req.step_id ++ " not found in lesson"))
      | some currentStep =>
        let tryBody : Except PyErr FeedbackResponse :=
          match bo with
          | .raise => .error .valueError
          | .ok data => do
            let otJ ← pyDictGetD data "overlay_type" (Json.str "diagram")
            let atJ ← pyDictGetD data "audio_text"
              (Json.str "Please adjust your technique.")
            let elJ ← pyDictGetD data "elements" (Json.arr [])
            let duJ ← pyDictGetD data "duration_seconds" (Json.num 5)
            let ot ← pyStr otJ
            let atext ← pyStr atJ
            let els ← validateElements elJ
            let du ← pyFloat duJ
            Except.ok
              { success := true,
                overlay := some { overlay_type := ot, audio_text := atext,
                                  elements := els, duration_seconds := du },
                message := "Correction generated successfully" }
        match tryBody with
        | .ok r => .ok r
        | .error _ =>
          .ok { success := true,
                overlay := some (fallbackOverlay currentStep.title),
                message := "Using fallback correction" }

/-! ## Lesson storage (services/lesson_storage.py) -/

/-- A stored lesson record: one JSON dict of the list held in
`storage/lessons.json`. -/
abbrev LessonRec := List (String × Json)

def dictGet (r : LessonRec) (k : String) : Option Json :=
  (r.find? (fun p => p.1 = k)).map (fun p => p.2)

/-- Python `d[k] = v` on a dict. -/
def dictSet (r : LessonRec) (k : String) (v : Json) : LessonRec :=
  match r with
  | [] => [(k, v)]
  | p :: rest => if p.1 = k then (k, v) :: rest else p :: dictSet rest k v

/-- Python `d.update(updates)`. -/
def dictMerge (r : LessonRec) (updates : LessonRec) : LessonRec :=
  updates.foldl (fun acc p => dictSet acc p.1 p.2) r

/-- `lesson_dict.get("id") == lesson_id`: a missing or non-string id never
equals the requested string. -/
def idMatches (r : LessonRec) (lessonId : String) : Bool :=
  match dictGet r "id" with
  | some (Json.str s) => s = lessonId
  | _ => false

/-- `LessonStorage.update`: the first record whose id matches is merged with
the updates in place and the list is written back; all other records are
untouched.  (The `model_dump` normalisation of an updated teacher-config
value is the identity here, where stored values are already plain JSON.) -/
def updateLessons (ls : List LessonRec) (lessonId : String)
    (updates : LessonRec) : List LessonRec :=
  match ls with
  | [] => []
  | r :: rest =>
    if idMatches r lessonId then dictMerge r updates :: rest
    else r :: updateLessons rest lessonId updates

/-- `LessonStorage.delete`: keep exactly the records whose id does not
match. -/
def deleteLessons (ls : List LessonRec) (lessonId : String) : List LessonRec :=
  ls.filter (fun r => ! idMatches r lessonId)

/-! ## Claim predicates -/

/-- Consecutive windows do not overlap: each window ends no later than the
next one starts. -/
def windowsNonOverlapping (ws : List (ℚ × ℚ)) : Prop :=
  List.Chain' (fun a b => a.2 ≤ b.1) ws

/-- Start times are monotonically non-decreasing along the sequence. -/
def startsMonotone (ws : List (ℚ × ℚ)) : Prop :=
  List.Chain' (fun a b => a.1 ≤ b.1) ws

/-- The time windows of a parsed config, in step order. -/
def stepWindows (c : TeacherConfig) : List (ℚ × ℚ) :=
  c.steps.map (fun s => (s.start_time, s.end_time))

/-! ## Concrete inputs used by witnesses and counterexamples -/

/-- Valid JSON whose `steps` list is empty. -/
def rawEmptySteps : String := "\x7b\"steps\": []\x7d"

/-- Model output with two step objects carrying valid but overlapping
windows: `[0, 10]` followed by `[5, 15]`. -/
def rawOverlapSteps : String :=
  "\x7b\"steps\": [\x7b\"step_id\": 1, \"title\": \"A\", \"description\": \"d\", " ++
  "\"start_time\": 0.0, \"end_time\": 10.0\x7d, " ++
  "\x7b\"step_id\": 2, \"title\": \"B\", \"description\": \"d\", " ++
  "\"start_time\": 5.0, \"end_time\": 15.0\x7d]\x7d"

/-- Backend verification result carrying `confidence = 1.7`. -/
def cexConfidenceText : String :=
  "\x7b\"status\": \"complete\", \"confidence\": 1.7, \"reason\": \"done\"\x7d"

/-- Backend verification result with an unknown status value. -/
def unknownStatusText : String := "\x7b\"status\": \"banana\"\x7d"

/-- The parsed backend result dict carrying `confidence = 1.7`. -/
def confDataW : Json :=
  Json.obj [("status", Json.str "complete"),
            ("confidence", Json.num (17 / 10)),
            ("reason", Json.str "done")]

def stepW : Step :=
  { step_id := 1, title := "Cut the wire", description := "d",
    expected_objects := [], expected_motion := "",
    expected_duration_seconds := 10, mistake_patterns := [],
    correction_mode := "diagram_overlay_audio",
    start_time := 0, end_time := 1, clip_url := none }

def cfgW : TeacherConfig :=
  { lesson_id := "l1", total_steps := 1, steps := [stepW] }

def lessonW : Lesson :=
  { id := "l1", title := "T", demo_video_url := "v",
    ai_teacher_config := some cfgW }

def getLessonW : String → Option Lesson :=
  fun s => if s = "l1" then some lessonW else none

def reqW : FeedbackRequest :=
  { lesson_id := "l1", step_id := 1, mistake_type := "wrong_tool",
    frame_base64 := none }

/-! ## Reconciliation lemmas -/

theorem reconcileGo_length (dur : ℚ) (N : ℕ) (ws : List (ℚ × ℚ)) :
    ∀ i : ℕ, (reconcileGo dur N i ws).length = ws.length := by
  induction ws with
  | nil => intro i; rfl
  | cons w rest ih => intro i; simp [reconcileGo, ih]

theorem reconcileGo_get? (dur : ℚ) (N : ℕ) (ws : List (ℚ × ℚ)) :
    ∀ i j : ℕ,
      (reconcileGo dur N i ws).get? j =
        (ws.get? j).map (fun w => reconcileWindow (i + j) N dur w.1 w.2) := by
  induction ws with
  | nil => intro i j; simp [reconcileGo]
  | cons w rest ih =>
    intro i j
    cases j with
    | zero => simp [reconcileGo]
    | succ j2 =>
      have hidx : i + (j2 + 1) = (i + 1) + j2 := by omega
      simp only [reconcileGo, List.get?_cons_succ, hidx]
      exact ih (i + 1) j2

theorem reconcileWindows_get?_invalid (dur : ℚ) (ws : List (ℚ × ℚ))
    (hinv : ∀ w ∈ ws, w.2 ≤ w.1) (hdur : 0 < dur) (hne : ws ≠ [])
    (j : ℕ) (hj : j < ws.length) :
    (reconcileWindows dur ws).get? j = some (evenWindow j ws.length dur) := by
  have hN : 0 < ws.length := List.length_pos.mpr hne
  have hw : (ws.get ⟨j, hj⟩).2 ≤ (ws.get ⟨j, hj⟩).1 :=
    hinv _ (ws.get_mem j hj)
  rw [reconcileWindows, reconcileGo_get?, List.get?_eq_get hj]
  simp only [Option.map_some', Option.some.injEq, Nat.zero_add]
  unfold reconcileWindow
  rw [if_pos ⟨hw, hdur, hN⟩]

theorem reconcileWindows_sound_invalid (dur : ℚ) (ws : List (ℚ × ℚ))
    (hinv : ∀ w ∈ ws, w.2 ≤ w.1) (hdur : 0 < dur) (hne : ws ≠ [])
    (j : ℕ) (a : ℚ × ℚ) (ha : (reconcileWindows dur ws).get? j = some a) :
    j < ws.length ∧ a = evenWindow j ws.length dur := by
  have hj : j < (reconcileWindows dur ws).length :=
    List.get?_eq_some.mp ha |>.1
  rw [reconcileWindows, reconcileGo_length] at hj
  refine ⟨hj, ?_⟩
  have := (reconcileWindows_get?_invalid dur ws hinv hdur hne j hj).symm.trans ha
  exact (Option.some.injEq _ _ ▸ this).symm

theorem reconcileGo_valid_noop (dur : ℚ) (N : ℕ) (ws : List (ℚ × ℚ))
    (hval : ∀ w ∈ ws, w.1 < w.2) : ∀ i : ℕ, reconcileGo dur N i ws = ws := by
  induction ws with
  | nil => intro i; rfl
  | cons w rest ih =>
    intro i
    have hw : w.1 < w.2 := hval w (by simp)
    have hrest : ∀ w2 ∈ rest, w2.1 < w2.2 := fun w2 hw2 => hval w2 (by simp [hw2])
    simp [reconcileGo, reconcileWindow, hw.not_le, ih hrest]

/-! ## Claim theorems: timestamp reconciliation -/

/-- Claim C3: for every parsed step list of length `N ≥ 1` in which every
window is invalid (`end_time ≤ start_time`) and every duration `D > 0`,
reconciliation assigns the `i`-th step the window
`[i·(D/N), (i+1)·(D/N)]`, so the reconciled windows exactly partition
`[0, D]` into `N` equal, non-overlapping, ascending intervals. -/
theorem reconcile_even_partition (dur : ℚ) (ws : List (ℚ × ℚ))
    (hne : ws ≠ []) (hinv : ∀ w ∈ ws, w.2 ≤ w.1) (hdur : 0 < dur) :
    (reconcileWindows dur ws).length = ws.length ∧
    (∀ j, j < ws.length →
      (reconcileWindows dur ws).get? j =
        some ((j : ℚ) * (dur / (ws.length : ℚ)),
              ((j : ℚ) + 1) * (dur / (ws.length : ℚ)))) ∧
    (∀ w, (reconcileWindows dur ws).get? 0 = some w → w.1 = 0) ∧
    (∀ w, (reconcileWindows dur ws).get? (ws.length - 1) = some w →
      w.2 = dur) ∧
    (∀ j a b, (reconcileWindows dur ws).get? j = some a →
      (reconcileWindows dur ws).get? (j + 1) = some b → a.2 = b.1) ∧
    (∀ j a, (reconcileWindows dur ws).get? j = some a →
      a.2 - a.1 = dur / (ws.length : ℚ)) ∧
    (∀ j a, (reconcileWindows dur ws).get? j = some a → a.1 < a.2) := by
  have hN : 0 < ws.length := List.length_pos.mpr hne
  have hNQ : (0 : ℚ) < (ws.length : ℚ) := by exact_mod_cast hN
  have hq : 0 < dur / (ws.length : ℚ) := div_pos hdur hNQ
  have hsound := reconcileWindows_sound_invalid dur ws hinv hdur hne
  refine ⟨reconcileGo_length dur ws.length ws 0, ?_, ?_, ?_, ?_, ?_, ?_⟩
  · intro j hj
    rw [reconcileWindows_get?_invalid dur ws hinv hdur hne j hj]
    rfl
  · intro w hw
    obtain ⟨-, rfl⟩ := hsound 0 w hw
    simp [evenWindow]
  · intro w hw
    obtain ⟨-, rfl⟩ := hsound (ws.length - 1) w hw
    have hcast : ((ws.length - 1 : ℕ) : ℚ) = (ws.length : ℚ) - 1 := by
      have : (1 : ℕ) ≤ ws.length := hN
      push_cast [this]
      ring
    simp only [evenWindow, hcast]
    field_simp
  · intro j a b ha hb
    obtain ⟨-, rfl⟩ := hsound j a ha
    obtain ⟨-, rfl⟩ := hsound (j + 1) b hb
    simp only [evenWindow]
    push_cast
    ring
  · intro j a ha
    obtain ⟨-, rfl⟩ := hsound j a ha
    simp only [evenWindow]
    ring
  · intro j a ha
    obtain ⟨-, rfl⟩ := hsound j a ha
    simp only [evenWindow]
    have : (j : ℚ) < (j : ℚ) + 1 := by linarith
    exact mul_lt_mul_of_pos_right this hq

/-- Witness for C3: the spec's even-split scenario — duration 20 and two
steps with missing timestamps. -/
theorem reconcile_even_partition_witness :
    (([((0 : ℚ), (0 : ℚ)), ((0 : ℚ), (0 : ℚ))] : List (ℚ × ℚ)) ≠ []) ∧
    (∀ w ∈ ([((0 : ℚ), (0 : ℚ)), ((0 : ℚ), (0 : ℚ))] : List (ℚ × ℚ)),
      w.2 ≤ w.1) ∧
    ((0 : ℚ) < 20) ∧
    (reconcileWindows 20 [((0 : ℚ), (0 : ℚ)), ((0 : ℚ), (0 : ℚ))]).length = 2 := by
  have h1 : ([((0 : ℚ), (0 : ℚ)), ((0 : ℚ), (0 : ℚ))] : List (ℚ × ℚ)) ≠ [] := by
    simp
  have h2 : ∀ w ∈ ([((0 : ℚ), (0 : ℚ)), ((0 : ℚ), (0 : ℚ))] : List (ℚ × ℚ)),
      w.2 ≤ w.1 := of_decide_eq_true (by with_unfolding_all rfl)
  have h3 : (0 : ℚ) < 20 := of_decide_eq_true (by with_unfolding_all rfl)
  exact ⟨h1, h2, h3, (reconcile_even_partition 20 _ h1 h2 h3).1⟩

/-- Claim C9: reconciliation is a no-op on a step list whose windows are all
already valid (`start_time < end_time`), so re-running it never alters an
already-reconciled procedure. -/
theorem reconcile_noop_on_valid (dur : ℚ) (ws : List (ℚ × ℚ))
    (hval : ∀ w ∈ ws, w.1 < w.2) : reconcileWindows dur ws = ws :=
  reconcileGo_valid_noop dur ws.length ws hval 0

/-- Witness for C9. -/
theorem reconcile_noop_on_valid_witness :
    (∀ w ∈ ([((0 : ℚ), (1 : ℚ)), ((2 : ℚ), (3 : ℚ))] : List (ℚ × ℚ)),
      w.1 < w.2) ∧
    reconcileWindows 7 [((0 : ℚ), (1 : ℚ)), ((2 : ℚ), (3 : ℚ))] =
      [((0 : ℚ), (1 : ℚ)), ((2 : ℚ), (3 : ℚ))] := by
  have h : ∀ w ∈ ([((0 : ℚ), (1 : ℚ)), ((2 : ℚ), (3 : ℚ))] : List (ℚ × ℚ)),
      w.1 < w.2 := of_decide_eq_true (by with_unfolding_all rfl)
  exact ⟨h, reconcile_noop_on_valid 7 _ h⟩

/-- Claim C8: a valid model window (`start < end`) passes through
reconciliation unmodified; the clip window derived from it by
`extract_clip` has its start clamped to `[0, duration]`, its end clamped to
the duration except that it is floored to `start + 0.5`, and is therefore
never degenerate. -/
theorem valid_window_passthrough_clip (i N : ℕ) (dur s e : ℚ)
    (hv : s < e) (hd : 0 ≤ dur) :
    reconcileWindow i N dur s e = (s, e) ∧
    (0 ≤ s → s ≤ dur → (clipBounds dur s e).1 = s) ∧
    0 ≤ (clipBounds dur s e).1 ∧
    (clipBounds dur s e).1 ≤ dur ∧
    (clipBounds dur s e).1 + 1 / 2 ≤ (clipBounds dur s e).2 ∧
    ((clipBounds dur s e).1 + 1 / 2 ≤ e → e ≤ dur →
      (clipBounds dur s e).2 = e) ∧
    (clipBounds dur s e).1 < (clipBounds dur s e).2 := by
  refine ⟨?_, ?_, ?_, ?_, ?_, ?_, ?_⟩
  · simp [reconcileWindow, hv.not_le]
  · intro h0 hsd
    simp [clipBounds, min_eq_left hsd, max_eq_right h0]
  · exact le_max_left 0 _
  · exact max_le hd (min_le_right s dur)
  · exact le_max_left _ _
  · intro hfloor hedur
    simp only [clipBounds] at hfloor ⊢
    rw [min_eq_left hedur]
    exact max_eq_right hfloor
  · calc (clipBounds dur s e).1 < (clipBounds dur s e).1 + 1 / 2 := by linarith
      _ ≤ (clipBounds dur s e).2 := le_max_left _ _

/-- Witness for C8. -/
theorem valid_window_passthrough_clip_witness :
    ((1 : ℚ) < 2) ∧ ((0 : ℚ) ≤ 10) ∧
    reconcileWindow 0 1 10 1 2 = (1, 2) := by
  have h1 : (1 : ℚ) < 2 := of_decide_eq_true (by with_unfolding_all rfl)
  have h2 : (0 : ℚ) ≤ 10 := of_decide_eq_true (by with_unfolding_all rfl)
  exact ⟨h1, h2, (valid_window_passthrough_clip 0 1 10 1 2 h1 h2).1⟩

/-- Claim C7 (amended): when every model-provided window is invalid and the
video duration is positive, the reconciled windows are non-overlapping with
monotonically non-decreasing start times; valid model windows are passed
through unchecked and may violate the invariant (see the counterexample). -/
theorem reconcile_all_invalid_sorted (dur : ℚ) (ws : List (ℚ × ℚ))
    (hne : ws ≠ []) (hinv : ∀ w ∈ ws, w.2 ≤ w.1) (hdur : 0 < dur) :
    windowsNonOverlapping (reconcileWindows dur ws) ∧
    startsMonotone (reconcileWindows dur ws) := by
  have hN : 0 < ws.length := List.length_pos.mpr hne
  have hNQ : (0 : ℚ) < (ws.length : ℚ) := by exact_mod_cast hN
  have hq : 0 < dur / (ws.length : ℚ) := div_pos hdur hNQ
  have hlen : (reconcileWindows dur ws).length = ws.length :=
    reconcileGo_length dur ws.length ws 0
  have hget : ∀ (j : ℕ) (hj : j < (reconcileWindows dur ws).length),
      (reconcileWindows dur ws).get ⟨j, hj⟩ = evenWindow j ws.length dur := by
    intro j hj
    have hj2 : j < ws.length := hlen ▸ hj
    have := reconcileWindows_get?_invalid dur ws hinv hdur hne j hj2
    rw [List.get?_eq_get hj] at this
    exact Option.some.inj this
  constructor
  · rw [windowsNonOverlapping, List.chain'_iff_get]
    intro j hj
    rw [hget j (by omega), hget (j + 1) (by omega)]
    simp only [evenWindow]
    push_cast
    exact le_of_eq (by ring)
  · rw [startsMonotone, List.chain'_iff_get]
    intro j hj
    rw [hget j (by omega), hget (j + 1) (by omega)]
    simp only [evenWindow]
    push_cast
    have : (j : ℚ) ≤ (j : ℚ) + 1 := by linarith
    exact mul_le_mul_of_nonneg_right this hq.le

/-! ## Verification-route lemmas -/

theorem lastRequestTime_set (st : RateState) (lid : String) (t : ℚ) :
    lastRequestTime (setRequestTime st lid t) lid = t := by
  induction st with
  | nil => simp [setRequestTime, lastRequestTime]
  | cons p rest ih =>
    by_cases h : p.1 = lid
    · simp [setRequestTime, h, lastRequestTime]
    · simp [setRequestTime, h, lastRequestTime, ih]

theorem verifyStep_state_accepted (st : RateState) (now : ℚ) (lid : String)
    (bo : BackendOutcome)
    (h : ¬ (now - lastRequestTime st lid < rateLimitSeconds)) :
    (verifyStep st now lid bo).state = setRequestTime st lid now := by
  cases bo <;> simp [verifyStep, h]

theorem buildVerificationResponse_ok_status (data : Json)
    (r : VerificationResponse)
    (h : buildVerificationResponse data = Except.ok r) :
    allowedStatus r.status ∧
    (∀ st0, pyDictGetD data "status" (Json.str "in_progress") = Except.ok st0 →
      st0 ≠ Json.str "complete" → st0 ≠ Json.str "mistake" →
      r.status = "in_progress") := by
  unfold buildVerificationResponse at h
  cases hs : pyDictGetD data "status" (Json.str "in_progress") with
  | error e => simp only [hs] at h; exact Except.noConfusion h
  | ok st0 =>
    simp only [hs] at h
    cases h1 : pyDictGetD data "reason" (Json.str "Analyzing...") with
    | error e => simp only [h1] at h; exact Except.noConfusion h
    | ok reasonJ =>
      simp only [h1] at h
      cases h2 : pyDictGetD data "confidence" (Json.num (1 / 2)) with
      | error e => simp only [h2] at h; exact Except.noConfusion h
      | ok confJ =>
        simp only [h2] at h
        cases h3 : pyDictGetD data "suggestion" Json.null with
        | error e => simp only [h3] at h; exact Except.noConfusion h
        | ok suggJ =>
          simp only [h3] at h
          cases h4 : pyStr reasonJ with
          | error e => simp only [h4] at h; exact Except.noConfusion h
          | ok reason =>
            simp only [h4] at h
            cases h5 : pyFloat confJ with
            | error e => simp only [h5] at h; exact Except.noConfusion h
            | ok conf =>
              simp only [h5] at h
              cases h6 : pyOptStr suggJ with
              | error e => simp only [h6] at h; exact Except.noConfusion h
              | ok sugg =>
                simp only [h6] at h
                have hr := Except.ok.inj h
                constructor
                · rw [← hr]
                  cases st0 with
                  | str s =>
                    show allowedStatus (if allowedStatus s then s else "in_progress")
                    by_cases hall : allowedStatus s
                    · rwa [if_pos hall]
                    · rw [if_neg hall]; exact Or.inl rfl
                  | null => exact Or.inl rfl
                  | bool b => exact Or.inl rfl
                  | num q => exact Or.inl rfl
                  | arr xs => exact Or.inl rfl
                  | obj kvs => exact Or.inl rfl
                · intro st1 hst1 hnc hnm
                  have hst : st1 = st0 := (Except.ok.inj hst1).symm
                  subst hst
                  rw [← hr]
                  cases st1 with
                  | str s =>
                    show (if allowedStatus s then s else "in_progress") =
                      "in_progress"
                    by_cases hall : allowedStatus s
                    · rw [if_pos hall]
                      rcases hall with h7 | h7 | h7
                      · exact h7
                      · exact absurd (by rw [h7]) hnc
                      · exact absurd (by rw [h7]) hnm
                    · rw [if_neg hall]
                  | null => rfl
                  | bool b => rfl
                  | num q => rfl
                  | arr xs => rfl
                  | obj kvs => rfl

/-! ## Claim theorems: verification route -/

/-- Claim C2: a second `verify_step` call for the same lesson arriving less
than 2 seconds after the lesson's last accepted check returns
`in_progress` with confidence 0 and reason `Checking...`, invokes no
backend, and leaves the rate-limit state unchanged. -/
theorem rate_gate_second_call (st : RateState) (t0 t1 : ℚ) (lid : String)
    (bo1 bo2 : BackendOutcome)
    (hacc : ¬ (t0 - lastRequestTime st lid < rateLimitSeconds))
    (hfast : t1 - t0 < rateLimitSeconds) :
    (verifyStep (verifyStep st t0 lid bo1).state t1 lid bo2).response.status =
      "in_progress" ∧
    (verifyStep (verifyStep st t0 lid bo1).state t1 lid bo2).response.confidence
      = 0 ∧
    (verifyStep (verifyStep st t0 lid bo1).state t1 lid bo2).response.reason =
      "Checking..." ∧
    (verifyStep (verifyStep st t0 lid bo1).state t1 lid bo2).backendCalled =
      false ∧
    (verifyStep (verifyStep st t0 lid bo1).state t1 lid bo2).state =
      (verifyStep st t0 lid bo1).state := by
  have h1 : (verifyStep st t0 lid bo1).state = setRequestTime st lid t0 :=
    verifyStep_state_accepted st t0 lid bo1 hacc
  have h2 : t1 - lastRequestTime (verifyStep st t0 lid bo1).state lid <
      rateLimitSeconds := by
    rw [h1, lastRequestTime_set]; exact hfast
  generalize (verifyStep st t0 lid bo1).state = s1 at h2 ⊢
  refine ⟨?_, ?_, ?_, ?_, ?_⟩ <;> simp [verifyStep, h2]

/-- Witness for C2: two calls at t=100 and t=101 for lesson L1. -/
theorem rate_gate_second_call_witness :
    (¬ ((100 : ℚ) - lastRequestTime [] "L1" < rateLimitSeconds)) ∧
    ((101 : ℚ) - 100 < rateLimitSeconds) ∧
    (verifyStep (verifyStep [] 100 "L1" BackendOutcome.initFail).state 101 "L1"
      BackendOutcome.initFail).response.status = "in_progress" := by
  have h1 : ¬ ((100 : ℚ) - lastRequestTime [] "L1" < rateLimitSeconds) :=
    of_decide_eq_true (by with_unfolding_all rfl)
  have h2 : (101 : ℚ) - 100 < rateLimitSeconds :=
    of_decide_eq_true (by with_unfolding_all rfl)
  exact ⟨h1, h2, (rate_gate_second_call [] 100 101 "L1" _ _ h1 h2).1⟩

/-- Claim C4: whatever the backend outcome — a raised exception, non-JSON
text, or JSON with an unknown status — `verify_step` returns a response
whose status is one of the three allowed values; failures and unknown
statuses all degrade to `in_progress`, and no error propagates (the
operation is total by construction). -/
theorem verify_never_propagates (st : RateState) (now : ℚ) (lid : String)
    (bo : BackendOutcome) :
    allowedStatus (verifyStep st now lid bo).response.status ∧
    (bo = BackendOutcome.initFail →
      (verifyStep st now lid bo).response.status = "in_progress") ∧
    (∀ m, bo = BackendOutcome.callRaise m →
      (verifyStep st now lid bo).response.status = "in_progress") ∧
    (∀ t, bo = BackendOutcome.ok t → braceJson t = none →
      (verifyStep st now lid bo).response.status = "in_progress") ∧
    (∀ t j st0, bo = BackendOutcome.ok t → braceJson t = some j →
      pyDictGetD j "status" (Json.str "in_progress") = Except.ok st0 →
      st0 ≠ Json.str "complete" → st0 ≠ Json.str "mistake" →
      (verifyStep st now lid bo).response.status = "in_progress") := by
  by_cases hg : now - lastRequestTime st lid < rateLimitSeconds
  · refine ⟨?_, ?_, ?_, ?_, ?_⟩
    · simp [verifyStep, hg, allowedStatus]
    · intro _; simp [verifyStep, hg]
    · intro m _; simp [verifyStep, hg]
    · intro t _ _; simp [verifyStep, hg]
    · intro t j st0 _ _ _ _ _; simp [verifyStep, hg]
  · cases bo with
    | initFail =>
      refine ⟨?_, ?_, ?_, ?_, ?_⟩
      · simp [verifyStep, hg, allowedStatus]
      · intro _; simp [verifyStep, hg]
      · intro m hm; exact BackendOutcome.noConfusion hm
      · intro t ht _; exact BackendOutcome.noConfusion ht
      · intro t j st0 ht _ _ _ _; exact BackendOutcome.noConfusion ht
    | callRaise m =>
      refine ⟨?_, ?_, ?_, ?_, ?_⟩
      · simp [verifyStep, hg, allowedStatus]
      · intro hm; exact BackendOutcome.noConfusion hm
      · intro m2 _; simp [verifyStep, hg]
      · intro t ht _; exact BackendOutcome.noConfusion ht
      · intro t j st0 ht _ _ _ _; exact BackendOutcome.noConfusion ht
    | ok t =>
      cases he : extractBraces t with
      | none =>
        have hb : braceJson t = none := by rw [braceJson, he]; rfl
        have hres : (verifyStep st now lid
            (BackendOutcome.ok t)).response.status = "in_progress" := by
          simp [verifyStep, hg, he]
        refine ⟨?_, ?_, ?_, ?_, ?_⟩
        · rw [hres]; exact Or.inl rfl
        · intro hm; exact BackendOutcome.noConfusion hm
        · intro m hm; exact BackendOutcome.noConfusion hm
        · intro t2 ht2 _; exact hres
        · intro t2 j st0 ht2 hj _ _ _
          rw [← BackendOutcome.ok.inj ht2, hb] at hj
          exact Option.noConfusion hj
      | some sub =>
        cases hl : jsonLoads sub with
        | none =>
          have hb : braceJson t = none := by rw [braceJson, he]; exact hl
          have hres : (verifyStep st now lid
              (BackendOutcome.ok t)).response.status = "in_progress" := by
            simp [verifyStep, hg, he, hl]
          refine ⟨?_, ?_, ?_, ?_, ?_⟩
          · rw [hres]; exact Or.inl rfl
          · intro hm; exact BackendOutcome.noConfusion hm
          · intro m hm; exact BackendOutcome.noConfusion hm
          · intro t2 ht2 _; exact hres
          · intro t2 j st0 ht2 hj _ _ _
            rw [← BackendOutcome.ok.inj ht2, hb] at hj
            exact Option.noConfusion hj
        | some data =>
          have hb : braceJson t = some data := by rw [braceJson, he]; exact hl
          cases hbuild : buildVerificationResponse data with
          | error e =>
            have hres : (verifyStep st now lid
                (BackendOutcome.ok t)).response.status = "in_progress" := by
              simp [verifyStep, hg, he, hl, hbuild]
            refine ⟨?_, ?_, ?_, ?_, ?_⟩
            · rw [hres]; exact Or.inl rfl
            · intro hm; exact BackendOutcome.noConfusion hm
            · intro m hm; exact BackendOutcome.noConfusion hm
            · intro t2 ht2 _; exact hres
            · intro t2 j st0 _ _ _ _ _; exact hres
          | ok r =>
            have hall := buildVerificationResponse_ok_status data r hbuild
            have hres : (verifyStep st now lid
                (BackendOutcome.ok t)).response = r := by
              simp [verifyStep, hg, he, hl, hbuild]
            refine ⟨?_, ?_, ?_, ?_, ?_⟩
            · rw [hres]; exact hall.1
            · intro hm; exact BackendOutcome.noConfusion hm
            · intro m hm; exact BackendOutcome.noConfusion hm
            · intro t2 ht2 hn
              rw [← BackendOutcome.ok.inj ht2, hb] at hn
              exact Option.noConfusion hn
            · intro t2 j st0 ht2 hj hst hnc hnm
              rw [← BackendOutcome.ok.inj ht2, hb] at hj
              have hdj : data = j := Option.some.inj hj
              subst hdj
              rw [hres]
              exact hall.2 st0 hst hnc hnm

/-- Witness for C4: an unknown status value is coerced to `in_progress`. -/
theorem verify_never_propagates_witness :
    braceJson unknownStatusText =
      some (Json.obj [("status", Json.str "banana")]) ∧
    pyDictGetD (Json.obj [("status", Json.str "banana")]) "status"
      (Json.str "in_progress") = Except.ok (Json.str "banana") ∧
    (verifyStep [] 10 "L" (BackendOutcome.ok unknownStatusText)).response.status
      = "in_progress" := by
  have hb : braceJson unknownStatusText =
      some (Json.obj [("status", Json.str "banana")]) := by
    with_unfolding_all rfl
  have hst : pyDictGetD (Json.obj [("status", Json.str "banana")]) "status"
      (Json.str "in_progress") = Except.ok (Json.str "banana") := by
    with_unfolding_all rfl
  have hnc : Json.str "banana" ≠ Json.str "complete" := by
    intro h; injection h with h2; exact absurd h2 (by decide)
  have hnm : Json.str "banana" ≠ Json.str "mistake" := by
    intro h; injection h with h2; exact absurd h2 (by decide)
  exact ⟨hb, hst,
    (verify_never_propagates [] 10 "L"
      (BackendOutcome.ok unknownStatusText)).2.2.2.2 unknownStatusText
      (Json.obj [("status", Json.str "banana")]) (Json.str "banana") rfl hb hst
      hnc hnm⟩

/-- Claim C6 counterexample: the classifier does not clamp confidence — a
backend confidence of 1.7 is stored as 1.7, not 1.0 (verification.py lines
141-146 pass `data.get("confidence", 0.5)` straight through). -/
theorem confidence_not_clamped_cex :
    (verifyStep [] 10 "L1"
      (BackendOutcome.ok cexConfidenceText)).response.confidence = 17 / 10 ∧
    ¬ ((verifyStep [] 10 "L1"
      (BackendOutcome.ok cexConfidenceText)).response.confidence ≤ 1) :=
  of_decide_eq_true (by with_unfolding_all rfl)

/-- Claim C6 (amended): the confidence returned by the backend is stored
unmodified (0.5 when absent); out-of-range values are not clamped, so 1.7
is stored as 1.7. -/
theorem confidence_passthrough (data : Json) (q : ℚ)
    (r : VerificationResponse)
    (hc : pyDictGetD data "confidence" (Json.num (1 / 2)) =
      Except.ok (Json.num q))
    (hr : buildVerificationResponse data = Except.ok r) :
    r.confidence = q := by
  unfold buildVerificationResponse at hr
  cases hs : pyDictGetD data "status" (Json.str "in_progress") with
  | error e => simp [hs, Except.bind] at hr
  | ok st0 =>
    simp only [hs, Except.bind] at hr
    cases h1 : pyDictGetD data "reason" (Json.str "Analyzing...") with
    | error e => simp [h1, Except.bind] at hr
    | ok reasonJ =>
      simp only [h1, Except.bind] at hr
      rw [hc] at hr
      simp only [Except.bind] at hr
      cases h3 : pyDictGetD data "suggestion" Json.null with
      | error e => simp [h3, Except.bind] at hr
      | ok suggJ =>
        simp only [h3, Except.bind] at hr
        cases h4 : pyStr reasonJ with
        | error e => simp [h4, Except.bind] at hr
        | ok reason =>
          simp only [h4, Except.bind] at hr
          simp only [pyFloat, Except.bind] at hr
          cases h6 : pyOptStr suggJ with
          | error e => simp [h6, Except.bind] at hr
          | ok sugg =>
            simp only [h6, Except.bind] at hr
            rw [← Except.ok.inj hr]

/-- Witness for the amended C6: confidence 1.7 is stored as 1.7. -/
theorem confidence_passthrough_witness :
    pyDictGetD confDataW "confidence" (Json.num (1 / 2)) =
      Except.ok (Json.num (17 / 10)) ∧
    buildVerificationResponse confDataW = Except.ok
      { status := "complete", reason := "done", confidence := 17 / 10,
        suggestion := none } ∧
    ({ status := "complete", reason := "done", confidence := 17 / 10,
        suggestion := none } : VerificationResponse).confidence = 17 / 10 := by
  have h1 : pyDictGetD confDataW "confidence" (Json.num (1 / 2)) =
      Except.ok (Json.num (17 / 10)) := by with_unfolding_all rfl
  have h2 : buildVerificationResponse confDataW = Except.ok
      { status := "complete", reason := "done", confidence := 17 / 10,
        suggestion := none } := by with_unfolding_all rfl
  exact ⟨h1, h2, confidence_passthrough confDataW (17 / 10) _ h1 h2⟩

/-- Witness for the amended C7. -/
theorem reconcile_all_invalid_sorted_witness :
    (([((3 : ℚ), (3 : ℚ)), ((5 : ℚ), (4 : ℚ))] : List (ℚ × ℚ)) ≠ []) ∧
    (∀ w ∈ ([((3 : ℚ), (3 : ℚ)), ((5 : ℚ), (4 : ℚ))] : List (ℚ × ℚ)),
      w.2 ≤ w.1) ∧
    ((0 : ℚ) < 20) ∧
    windowsNonOverlapping
      (reconcileWindows 20 [((3 : ℚ), (3 : ℚ)), ((5 : ℚ), (4 : ℚ))]) := by
  have h1 : ([((3 : ℚ), (3 : ℚ)), ((5 : ℚ), (4 : ℚ))] : List (ℚ × ℚ)) ≠ [] := by
    simp
  have h2 : ∀ w ∈ ([((3 : ℚ), (3 : ℚ)), ((5 : ℚ), (4 : ℚ))] : List (ℚ × ℚ)),
      w.2 ≤ w.1 := of_decide_eq_true (by with_unfolding_all rfl)
  have h3 : (0 : ℚ) < 20 := of_decide_eq_true (by with_unfolding_all rfl)
  exact ⟨h1, h2, h3, (reconcile_all_invalid_sorted 20 _ h1 h2 h3).1⟩

/-! ## Claim theorems: response parsing, feedback, storage -/

/-- Claim C1 (code bug): on the valid-JSON input whose `steps` list is
empty, `_parse_teacher_config` raises `ValueError` instead of returning the
one-step fallback — the `raise ValueError("No steps parsed")` sits inside a
`try` whose handler catches only `json.JSONDecodeError`, which the
`ValueError` is not, so the exception escapes to the caller. -/
theorem parse_empty_steps_raises :
    parseTeacherConfig rawEmptySteps "lesson1" 0 =
      Except.error PyErr.valueError := by
  with_unfolding_all rfl

set_option maxRecDepth 100000 in
/-- Claim C7 counterexample: a model response whose step windows are valid
(`start < end`) but overlapping is passed through reconciliation unchanged,
so the produced procedure violates the non-overlap invariant: the first
window `[0, 10]` overlaps the second `[5, 15]`. -/
theorem parse_overlap_cex :
    (parseTeacherConfig rawOverlapSteps "L" 20).map stepWindows =
      Except.ok [((0 : ℚ), (10 : ℚ)), ((5 : ℚ), (15 : ℚ))] ∧
    ¬ windowsNonOverlapping [((0 : ℚ), (10 : ℚ)), ((5 : ℚ), (15 : ℚ))] := by
  constructor
  · with_unfolding_all rfl
  · intro h
    rw [windowsNonOverlapping, List.chain'_cons] at h
    have h2 : (10 : ℚ) ≤ 5 := h.1
    linarith

/-- Claim C5: when the lesson and step exist and the overlay backend raises,
`get_feedback` returns the fixed fallback: a non-null `OverlayInstruction`
with `overlay_type = "diagram"`, non-empty `audio_text`, exactly one label
element referencing the step's title, and a 5-second duration. -/
theorem feedback_backend_raise_fallback (getLesson : String → Option Lesson)
    (req : FeedbackRequest) (lesson : Lesson) (cfg : TeacherConfig)
    (currentStep : Step)
    (h1 : getLesson req.lesson_id = some lesson)
    (h2 : lesson.ai_teacher_config = some cfg)
    (h3 : cfg.steps.find? (fun s => s.step_id = req.step_id) =
      some currentStep) :
    getFeedback getLesson req OverlayOutcome.raise =
      Except.ok { success := true,
                  overlay := some (fallbackOverlay currentStep.title),
                  message := "Using fallback correction" } ∧
    (fallbackOverlay currentStep.title).overlay_type = "diagram" ∧
    (fallbackOverlay currentStep.title).audio_text ≠ "" ∧
    (fallbackOverlay currentStep.title).duration_seconds = 5 ∧
    (∃ el, (fallbackOverlay currentStep.title).elements = [el] ∧
      jsonFind el "type" = some (Json.str "label") ∧
      jsonFind el "text" =
        some (Json.str ("Review: " ++ currentStep.title))) := by
  refine ⟨?_, rfl, ?_, rfl, ?_⟩
  · unfold getFeedback
    simp only [h1, h2, h3]
  · intro hcontra
    have hlen := congrArg String.length hcontra
    simp only [fallbackOverlay] at hlen
    rw [String.length_append] at hlen
    have h33 : ("Please check your technique for: " : String).length = 33 := rfl
    have h0 : ("" : String).length = 0 := rfl
    rw [h33, h0] at hlen
    omega
  · exact ⟨_, rfl, by with_unfolding_all rfl, by with_unfolding_all rfl⟩

/-- Witness for C5: a one-step lesson and a backend that raises. -/
theorem feedback_backend_raise_fallback_witness :
    getLessonW reqW.lesson_id = some lessonW ∧
    lessonW.ai_teacher_config = some cfgW ∧
    cfgW.steps.find? (fun s => s.step_id = reqW.step_id) = some stepW ∧
    (fallbackOverlay stepW.title).audio_text ≠ "" := by
  have h1 : getLessonW reqW.lesson_id = some lessonW := by
    with_unfolding_all rfl
  have h2 : lessonW.ai_teacher_config = some cfgW := rfl
  have h3 : cfgW.steps.find? (fun s => s.step_id = reqW.step_id) =
      some stepW := by with_unfolding_all rfl
  exact ⟨h1, h2, h3,
    (feedback_backend_raise_fallback getLessonW reqW lessonW cfgW stepW
      h1 h2 h3).2.2.1⟩

/-! ## Lesson-storage lemmas -/

theorem updateLessons_length (ls : List LessonRec) (lid : String)
    (u : LessonRec) : (updateLessons ls lid u).length = ls.length := by
  induction ls with
  | nil => rfl
  | cons r rest ih =>
    by_cases h : idMatches r lid = true
    · simp [updateLessons, h]
    · simp only [Bool.not_eq_true] at h
      simp [updateLessons, h, ih]

theorem updateLessons_get?_ne (lid : String) (u : LessonRec) :
    ∀ (ls : List LessonRec) (j : ℕ) (r : LessonRec),
      ls.get? j = some r → idMatches r lid = false →
      (updateLessons ls lid u).get? j = some r := by
  intro ls
  induction ls with
  | nil => intro j r h; simp at h
  | cons a rest ih =>
    intro j r hj hr
    by_cases ha : idMatches a lid = true
    · cases j with
      | zero =>
        have : a = r := by simpa using hj
        subst this
        rw [ha] at hr
        cases hr
      | succ j2 =>
        simp only [updateLessons, ha, if_true, List.get?_cons_succ] at hj ⊢
        exact hj
    · have ha2 : idMatches a lid = false := by
        simpa using ha
      cases j with
      | zero =>
        simp only [updateLessons, ha2, Bool.false_eq_true, if_false,
          List.get?_cons_zero] at hj ⊢
        exact hj
      | succ j2 =>
        simp only [updateLessons, ha2, Bool.false_eq_true, if_false,
          List.get?_cons_succ] at hj ⊢
        exact ih j2 r hj hr

/-- Claim C10: `LessonStorage.update` and `LessonStorage.delete` leave every
record whose id differs from the requested lesson id unchanged and in the
same relative position; `update` preserves the list length, and `delete`
yields an order-preserving sublist containing exactly the records whose id
does not match. -/
theorem storage_update_delete_frame (ls : List LessonRec) (lid : String)
    (u : LessonRec) (j : ℕ) (r : LessonRec)
    (hj : ls.get? j = some r) (hid : idMatches r lid = false) :
    (updateLessons ls lid u).length = ls.length ∧
    (updateLessons ls lid u).get? j = some r ∧
    r ∈ deleteLessons ls lid ∧
    (deleteLessons ls lid).Sublist ls ∧
    (∀ r2 ∈ deleteLessons ls lid, idMatches r2 lid = false) ∧
    (∀ r2 ∈ ls, idMatches r2 lid = false → r2 ∈ deleteLessons ls lid) := by
  refine ⟨updateLessons_length ls lid u,
    updateLessons_get?_ne lid u ls j r hj hid, ?_, ?_, ?_, ?_⟩
  · have hmem : r ∈ ls := List.get?_mem hj
    exact List.mem_filter.mpr ⟨hmem, by simp [hid]⟩
  · exact List.filter_sublist ls
  · intro r2 h2
    have := (List.mem_filter.mp h2).2
    simpa using this
  · intro r2 h2 hfalse
    exact List.mem_filter.mpr ⟨h2, by simp [hfalse]⟩

/-- Witness for C10: two records, updating and deleting by the first id
leaves the second record in place. -/
theorem storage_update_delete_frame_witness :
    ([[("id", Json.str "a")], [("id", Json.str "b")]] : List LessonRec).get? 1
      = some [("id", Json.str "b")] ∧
    idMatches [("id", Json.str "b")] "a" = false ∧
    (updateLessons [[("id", Json.str "a")], [("id", Json.str "b")]] "a"
      [("title", Json.str "x")]).length = 2 := by
  have h1 : ([[("id", Json.str "a")], [("id", Json.str "b")]] :
      List LessonRec).get? 1 = some [("id", Json.str "b")] := rfl
  have h2 : idMatches [("id", Json.str "b")] "a" = false := by
    with_unfolding_all rfl
  exact ⟨h1, h2,
    (storage_update_delete_frame
      [[("id", Json.str "a")], [("id", Json.str "b")]] "a"
      [("title", Json.str "x")] 1 [("id", Json.str "b")] h1 h2).1⟩

end CyclopsVision
